/-
Verification of kernprof / line_profiler behavioural claims.

The definitions below are a shallow embedding of the Python sources
(`kernprof.py`); components whose implementation lives outside the
provided sources (the `line_profiler` C extension and mixins) are
modelled from the specification and say so in their doc comments.
-/
import Mathlib

namespace Kernprof

/- ContextualProfile (kernprof.py, lines 122-151)

`ContextualProfile` keeps a non-negative `enable_count`; the inherited
`enable()` / `disable()` calls of the underlying profiler are modelled
by an `enabled` flag together with event counters recording how many
times each was invoked. -/

/-- State of a `ContextualProfile`: the by-count counter plus the state
of the underlying profiler (`enabled`) and counters of how many times
`enable()` / `disable()` of the underlying profiler were invoked. -/
structure ContextualProfile where
  enable_count : Nat
  enabled : Bool
  enable_events : Nat
  disable_events : Nat
deriving Repr, DecidableEq

/-- Python `ContextualProfile.__init__`: `self.enable_count = 0`. -/
def initProfile : ContextualProfile :=
  { enable_count := 0, enabled := false, enable_events := 0, disable_events := 0 }

/-- The inherited `enable()` of the underlying profiler. -/
def ContextualProfile.enable (p : ContextualProfile) : ContextualProfile :=
  { p with enabled := true, enable_events := p.enable_events + 1 }

/-- The inherited `disable()` of the underlying profiler. -/
def ContextualProfile.disable (p : ContextualProfile) : ContextualProfile :=
  { p with enabled := false, disable_events := p.disable_events + 1 }

/-- Python `ContextualProfile.enable_by_count` (kernprof.py lines 133-138):
if the counter is 0, call `enable()`; then increment the counter. -/
def ContextualProfile.enable_by_count (p : ContextualProfile) : ContextualProfile :=
  let p1 := if p.enable_count = 0 then p.enable else p
  { p1 with enable_count := p1.enable_count + 1 }

/-- Python `ContextualProfile.disable_by_count` (kernprof.py lines 140-147):
if the counter is positive, decrement it, and call `disable()` exactly
when it reaches 0. -/
def ContextualProfile.disable_by_count (p : ContextualProfile) : ContextualProfile :=
  if p.enable_count > 0 then
    let p1 := { p with enable_count := p.enable_count - 1 }
    if p1.enable_count = 0 then p1.disable else p1
  else p

/- RepeatedTimer (kernprof.py, lines 154-186)

Time (Python's `time.time()`) is modelled by `ℚ`.  The pending
`threading.Timer` is modelled by recording the delay it was armed
with (`armed_delay`). -/

/-- State of a `RepeatedTimer`: the fixed interval, the next scheduled
firing time `next_call`, the `is_running` flag, and the delay of the
currently armed `threading.Timer` (if any). -/
structure RepeatedTimer where
  interval : ℚ
  next_call : ℚ
  is_running : Bool
  armed_delay : Option ℚ
deriving Repr, DecidableEq

/-- Python `RepeatedTimer.start` (kernprof.py lines 177-182): if not running,
advance `next_call` by `interval` and arm a timer for
`next_call - time.time()`. -/
def RepeatedTimer.start (t : RepeatedTimer) (now : ℚ) : RepeatedTimer :=
  if t.is_running then t
  else
    { t with
      next_call := t.next_call + t.interval
      armed_delay := some (t.next_call + t.interval - now)
      is_running := true }

/-- Python `RepeatedTimer.__init__` (kernprof.py lines 163-170): record the
interval, set `next_call = time.time()`, and call `start()`. -/
def RepeatedTimer.init (interval : ℚ) (t0 : ℚ) : RepeatedTimer :=
  RepeatedTimer.start
    { interval := interval, next_call := t0, is_running := false, armed_delay := none } t0

/-- Python `RepeatedTimer._run` (kernprof.py lines 172-175), schedule part:
`self.is_running = False; self.start()`.  The subsequent
`self.dump_func(self.outfile)` does not touch the schedule state. -/
def RepeatedTimer.run (t : RepeatedTimer) (now : ℚ) : RepeatedTimer :=
  RepeatedTimer.start { t with is_running := false } now

/-- Fold a `RepeatedTimer` through the firings of `_run` at the given
sequence of clock readings. -/
def RepeatedTimer.runAll (t : RepeatedTimer) : List ℚ → RepeatedTimer
  | [] => t
  | now :: rest => RepeatedTimer.runAll (t.run now) rest

/-- Python `RepeatedTimer.stop` (kernprof.py lines 184-186): cancel the armed
timer and clear `is_running`. -/
def RepeatedTimer.stop (t : RepeatedTimer) : RepeatedTimer :=
  { t with armed_delay := none, is_running := false }

/-- The three statements in the body of `RepeatedTimer._run`
(kernprof.py lines 172-175), in source order. -/
inductive RunStep where
  | setNotRunning
  | startStep
  | dumpStep
deriving Repr, DecidableEq

/-- The body of `RepeatedTimer._run` as an ordered list of statements:
`self.is_running = False`, `self.start()`, `self.dump_func(...)`. -/
def runSteps : List RunStep := [RunStep.setNotRunning, RunStep.startStep, RunStep.dumpStep]

/-- Effect of each statement of `_run` on the timer state (the dump
statement does not change the schedule state). -/
def execStep (now : ℚ) (t : RepeatedTimer) : RunStep → RepeatedTimer
  | RunStep.setNotRunning => { t with is_running := false }
  | RunStep.startStep => t.start now
  | RunStep.dumpStep => t

/-- The statements of `_run` that have executed by the time the dump
function is entered; if the dump raises, exactly these have run. -/
def stepsBeforeDump : List RunStep :=
  runSteps.takeWhile (fun s => s ≠ RunStep.dumpStep)

/-- Execute a prefix of `_run`'s statements on a timer state. -/
def execSteps (now : ℚ) (t : RepeatedTimer) (steps : List RunStep) : RepeatedTimer :=
  steps.foldl (execStep now) t

/- Timer lifecycle of `main` (kernprof.py, lines 550-590)

`main` creates a `RepeatedTimer` when `options.output_interval` is
non-zero — once at line 552 and, rebinding the same variable `rt`,
once more at line 555 — and in the `finally` block calls `rt.stop()`
(line 589, reaching only the second timer) before
`prof.dump_stats(...)` (line 590).  The events relevant to claim C8
are recorded as an ordered trace, timers numbered in creation order. -/

/-- Events of `main`'s timer lifecycle: creating a `RepeatedTimer`,
calling `stop()` on one, and the final `dump_stats` export. -/
inductive MainEvent where
  | createTimer (id : Nat)
  | stopTimer (id : Nat)
  | dumpStats
deriving Repr, DecidableEq

/-- The ordered trace of timer-lifecycle events `main` performs for a
given `output_interval` value, straight from kernprof.py lines 550-590:
line 552 creates timer 0, line 555 rebinds `rt` to a new timer 1, the
`finally` block's line 589 calls `rt.stop()` — i.e. stops timer 1, the
one `rt` currently names — and line 590 runs the final `dump_stats`. -/
def mainTimerTrace (output_interval : Nat) : List MainEvent :=
  (if output_interval ≠ 0 then [MainEvent.createTimer 0] else [])
    ++ (if output_interval ≠ 0 then [MainEvent.createTimer 1] else [])
    ++ (if output_interval ≠ 0 then [MainEvent.stopTimer 1] else [])
    ++ [MainEvent.dumpStats]

/- pre_parse_single_arg_directive (kernprof.py, lines 271-328)

A direct embedding over `List String`.  Python's raised `ValueError`
becomes `Except.error`; the recursion on the segment before the
separator is realised with a fuel argument (`args.length + 1` fuel is
always enough, since the recursive call is on a strictly shorter
list). -/

/-- Fuelled body of `pre_parse_single_arg_directive`.  Mirrors
kernprof.py lines 306-328: if `sep` occurs, split around its first
occurrence, recurse on the prefix (with the default separator `"--"`,
as the Python recursive call passes only `(pre, flag)`), and reassemble;
otherwise locate the first `flag`, raising when it is the last element,
and split around it and its argument. -/
def preParseAux (fuel : Nat) (args : List String) (flag sep : String) :
    Except String (List String × Option String × List String) :=
  match fuel with
  | 0 => Except.error "fuel exhausted"
  | fuel + 1 =>
    if sep ∈ args then
      let i_sep := args.indexOf sep
      let pre := args.take i_sep
      let post := args.drop (i_sep + 1)
      match preParseAux fuel pre flag "--" with
      | Except.error e => Except.error e
      | Except.ok (pre_pre, none, _pre_post) =>
        Except.ok (pre_pre ++ [sep], none, post)
      | Except.ok (pre_pre, some arg, pre_post) =>
        Except.ok (pre_pre, some arg, pre_post ++ [sep] ++ post)
    else if flag ∈ args then
      let i_flag := args.indexOf flag
      if i_flag = args.length - 1 then
        Except.error ("argument expected for the " ++ flag ++ " option")
      else
        Except.ok (args.take i_flag, some (args.getD (i_flag + 1) ""), args.drop (i_flag + 2))
    else
      Except.ok (args, none, [])

/-- Python `pre_parse_single_arg_directive(args, flag, sep='--')`
(kernprof.py lines 271-328). -/
def pre_parse_single_arg_directive (args : List String) (flag : String)
    (sep : String := "--") :
    Except String (List String × Option String × List String) :=
  preParseAux (args.length + 1) args flag sep

/-- The segment of `args` preceding the first occurrence of `sep`
(the whole list when `sep` does not occur). -/
def segBeforeSep (args : List String) (sep : String) : List String :=
  if sep ∈ args then args.take (args.indexOf sep) else args

/-- Characterization of the value `pre_parse_single_arg_directive`
computes on a separator-free list, as a case split on the position of
the flag; used to state and prove the correctness lemmas below. -/
def noSepSplit (args : List String) (flag : String) :
    Except String (List String × Option String × List String) :=
  if flag ∈ args then
    if args.indexOf flag = args.length - 1 then
      Except.error ("argument expected for the " ++ flag ++ " option")
    else
      Except.ok (args.take (args.indexOf flag), some (args.getD (args.indexOf flag + 1) ""),
        args.drop (args.indexOf flag + 2))
  else Except.ok (args, none, [])

/- _restore_list (kernprof.py, lines 242-268) and its use on `main`

`_restore_list(lst)` closes over a list *object*, copies its contents
on entry, yields, and on *normal* completion does `lst[:] = old` — an
in-place splice of that same object.  Object identity matters: `main`
*rebinds* `sys.argv` to a freshly built list at kernprof.py line 503
(`sys.argv = [options.script] + options.args`), and the context
manager never touches that new object nor the attribute binding; it
only restores the contents of the object it closed over.  `sys.path`,
by contrast, is only ever mutated in place by `main`
(`sys.path.insert(0, ...)`, lines 509/518/546).  The model therefore
keeps a heap of list objects (object id → contents) separate from the
attribute bindings `sys.argv` / `sys.path` (object ids), so rebinding
and in-place mutation are distinct effects, exactly as in Python.
The restore statement follows the `yield` with no `try`/`finally`, so
when the guarded body raises, the restore is skipped entirely. -/

/-- Heap of Python list objects: object id → current contents. -/
def Heap : Type := Nat → List String

/-- In-place update of one list object (`lst[:] = v`, `lst.insert`,
etc. all end in this: the object keeps its id, its contents change). -/
def Heap.update (h : Heap) (i : Nat) (v : List String) : Heap :=
  fun j => if j = i then v else h j

/-- The interpreter state `main` runs in: which list object `sys.argv`
and `sys.path` currently reference, a fresh-allocation counter, and
the heap of list objects. -/
structure PyState where
  argvRef : Nat
  pathRef : Nat
  nextId : Nat
  heap : Heap

/-- Contents of the list `sys.argv` currently references. -/
def sysArgv (s : PyState) : List String := s.heap s.argvRef

/-- Contents of the list `sys.path` currently references. -/
def sysPath (s : PyState) : List String := s.heap s.pathRef

/-- Python `_restore_list` as a combinator: the context manager closed
over one list *object*, `oid` (the object the decorated attribute
referenced at decoration time).  On entry that object's contents are
copied (`old = lst.copy()`); the body runs; on `Except.ok` the object's
contents are spliced back (`lst[:] = old`) — the attribute bindings are
untouched, so an attribute the body rebound still references its new
object; on `Except.error` nothing is restored (no `try`/`finally`
around the `yield`). -/
def _restore_list {ρ ε : Type} (oid : Nat) (body : PyState → Except ε ρ × PyState)
    (s : PyState) : Except ε ρ × PyState :=
  let old := s.heap oid
  match body s with
  | (Except.ok r, s1) => (Except.ok r, { s1 with heap := s1.heap.update oid old })
  | (Except.error e, s1) => (Except.error e, s1)

/-- Python `main` with its decorators (kernprof.py lines 331-333):
`@_restore_list(sys.argv)` wrapped around `@_restore_list(sys.path)`
wrapped around the body.  Each decorator closed over the list object
the attribute referenced when the decorators were applied — here the
objects `s.argvRef` and `s.pathRef` reference on entry (nothing rebinds
them between import and the call in the modelled scenario). -/
def mainWithRestores {ρ ε : Type} (body : PyState → Except ε ρ × PyState)
    (s : PyState) : Except ε ρ × PyState :=
  _restore_list s.argvRef (_restore_list s.pathRef body) s

/-- Rebinding `sys.argv = v` (kernprof.py line 503,
`sys.argv = [options.script] + options.args`): the right-hand side
builds a fresh list object; the attribute is repointed at it, and the
object `sys.argv` previously referenced is left alone. -/
def argvRebind (s : PyState) (v : List String) : PyState :=
  { s with argvRef := s.nextId, nextId := s.nextId + 1,
           heap := s.heap.update s.nextId v }

/-- In-place `sys.path.insert(0, x)` (kernprof.py lines 509/518/546):
mutates the object `sys.path` currently references; no rebinding. -/
def pathInsert (s : PyState) (x : String) : PyState :=
  { s with heap := s.heap.update s.pathRef (x :: s.heap s.pathRef) }

/-- The `sys.argv` / `sys.path` effects of a normal plain-script run of
`main`'s body: line 503 rebinds `sys.argv` to `[script] ++ args`,
line 546 inserts the script's directory at the front of `sys.path` in
place, and the run completes normally. -/
def mainBodyModel (script : String) (args : List String) (dir : String)
    (s : PyState) : Except Unit Unit × PyState :=
  (Except.ok (), pathInsert (argvRebind s (script :: args)) dir)

/-- A concrete pre-call interpreter state: `sys.argv` references
object 0 with contents `["kernprof", "x"]`, `sys.path` references
object 1 with contents `["p"]`, ids from 2 up are free. -/
def initPyState : PyState :=
  { argvRef := 0, pathRef := 1, nextId := 2,
    heap := fun i => if i = 0 then ["kernprof", "x"] else if i = 1 then ["p"] else [] }

/- Callable Wrapping Dispatcher (spec §4.1)

Modelled from the spec: the wrap operation of
`line_profiler.profiler_mixin.ByCountProfilerMixin.wrap_callable`
(imported by kernprof.py but whose source is not part of the provided
files).  A callable carries the behaviour of its underlying function,
the identity of its Code Unit, and whether it is already a wrapped
object; the profiler state lists the registered Code Units. -/

/-- A callable as the dispatcher sees it: the id of its underlying
Code Unit, its input-output behaviour, and whether it is already a
wrapper produced by `wrap`. -/
structure WCallable where
  unit : Nat
  run : Nat → Nat
  isWrapper : Bool

/-- Modelled from the spec: `wrap(callable)` (spec §4.1).  Wrapping an
already-wrapped callable returns the existing wrapped object unchanged
with no further registration; wrapping a fresh callable registers its
Code Unit once and produces a wrapper with identical input-output
behaviour. -/
def wrap (registered : List Nat) (f : WCallable) : List Nat × WCallable :=
  if f.isWrapper then (registered, f)
  else (registered ++ [f.unit], { unit := f.unit, run := f.run, isWrapper := true })

/- Event Router hook save/restore (spec §4.2)

Modelled from the spec: the enable/disable paths of the engine's trace
hook (implemented in the `line_profiler` C extension, not part of the
provided files).  The process-wide active hook (`sys.gettrace()`) is
an `Option Nat` naming the installed callback, `none` when no hook is
installed. -/

/-- The process-wide trace-hook state: the active hook and the hook
the Router saved when it installed itself (present exactly while the
Router is installed). -/
structure RouterState where
  active : Option Nat
  savedPrev : Option (Option Nat)
deriving Repr, DecidableEq

/-- Modelled from the spec: on enable, the Router records whatever
hook is currently active and installs the profiler's own hook
(spec §4.2). -/
def routerEnable (profHook : Nat) (s : RouterState) : RouterState :=
  { active := some profHook, savedPrev := some s.active }

/-- Modelled from the spec: on disable, the Router restores whatever
hook was active immediately before it intervened (spec §4.2). -/
def routerDisable (s : RouterState) : RouterState :=
  match s.savedPrev with
  | some h => { active := h, savedPrev := none }
  | none => s

/- Event composition under `wrap_trace` (spec §4.2)

Modelled from the spec: the per-event behaviour of the Router when an
external hook H was already installed (implemented in the
`line_profiler` C extension, not part of the provided files).  On every
event the Router first forwards the event to the prior hook when
composition (`wrap_trace`) is on, then applies the engine's own timing
logic; with composition suppressed the prior hook receives nothing
while the engine still records line hits. -/

/-- A trace event as delivered to a hook. -/
inductive TEvent where
  | call
  | line (n : Nat)
  | ret
deriving Repr, DecidableEq

/-- Modelled from the spec: route a sequence of trace events through
the Router (spec §4.2).  Returns the events delivered to the prior
hook H, in order, and the list of line numbers the engine credited, in
order. -/
def routeEvents (wrap_trace : Bool) : List TEvent → List TEvent × List Nat
  | [] => ([], [])
  | e :: rest =>
    let d := routeEvents wrap_trace rest
    ((if wrap_trace then e :: d.1 else d.1),
     (match e with
      | TEvent.line n => n :: d.2
      | _ => d.2))

/-- The line numbers occurring in a sequence of trace events, in
order: what a correct engine credits. -/
def lineNumbers (events : List TEvent) : List Nat :=
  events.filterMap (fun e =>
    match e with
    | TEvent.line n => some n
    | _ => none)

/- Bound-method aggregation (spec §4.1, §4.2, §8)

Modelled from the spec: `LineProfiler.wrap_boundmethod` (in
`line_profiler.profiler_mixin`, not part of the provided files) wraps
the underlying unbound function of a bound method, so distinct bound
methods of the same function share one Code Unit; each invocation of
the wrapped form credits every executed source line of the body with
one hit in the stats keyed by that Code Unit. -/

/-- A bound method: the instance it is bound to and its underlying
unbound function. -/
structure BoundMethod where
  selfId : Nat
  func : Nat
deriving Repr, DecidableEq

/-- Modelled from the spec: the Code Unit a wrapped bound method
reports to is that of its underlying unbound function (spec §4.1,
"Bound method" row). -/
def codeUnitOf (m : BoundMethod) : Nat := m.func

/-- Hit-count store: Code Unit id × line number → hit count. -/
def Stats : Type := Nat → Nat → Nat

/-- One invocation of a wrapped callable for Code Unit `cu` whose body
executes the source lines `body`: each of those lines gains one hit. -/
def runOnce (stats : Stats) (cu : Nat) (body : List Nat) : Stats :=
  fun c l => if c = cu ∧ l ∈ body then stats c l + 1 else stats c l

/-- Iterated invocations: `m` invocations of a wrapped callable for Code Unit `cu`. -/
def runTimes (stats : Stats) (cu : Nat) (body : List Nat) : Nat → Stats
  | 0 => stats
  | m + 1 => runOnce (runTimes stats cu body m) cu body

/-- The all-zero hit-count store of a fresh profiler. -/
def emptyStats : Stats := fun _ _ => 0

/-- Shorthand for the state of a `ContextualProfile` after `n`
`enable_by_count()` calls followed by `n` `disable_by_count()` calls,
starting from a fresh profiler. -/
def acquireReleaseCycle (n : Nat) : ContextualProfile :=
  ContextualProfile.disable_by_count^[n] (ContextualProfile.enable_by_count^[n] initProfile)

/- Helper lemmas. -/

theorem enable_by_count_iter (n : Nat) (hn : n ≠ 0) :
    ContextualProfile.enable_by_count^[n] initProfile =
      { enable_count := n, enabled := true, enable_events := 1, disable_events := 0 } := by
  induction n with
  | zero => exact absurd rfl hn
  | succ m ih =>
    rcases Nat.eq_zero_or_pos m with hm | hm
    · subst hm
      simp [initProfile, ContextualProfile.enable_by_count, ContextualProfile.enable]
    · rw [Function.iterate_succ_apply', ih (Nat.pos_iff_ne_zero.mp hm)]
      simp [ContextualProfile.enable_by_count, ContextualProfile.enable,
        Nat.pos_iff_ne_zero.mp hm]

theorem disable_by_count_iter (n e d : Nat) (hn : n ≠ 0) :
    ContextualProfile.disable_by_count^[n]
        { enable_count := n, enabled := true, enable_events := e, disable_events := d } =
      { enable_count := 0, enabled := false, enable_events := e, disable_events := d + 1 } := by
  induction n with
  | zero => exact absurd rfl hn
  | succ m ih =>
    rw [Function.iterate_succ_apply]
    rcases Nat.eq_zero_or_pos m with hm | hm
    · subst hm
      simp [ContextualProfile.disable_by_count, ContextualProfile.disable]
    · have hm' := Nat.pos_iff_ne_zero.mp hm
      have hstep :
          ContextualProfile.disable_by_count
              { enable_count := m + 1, enabled := true, enable_events := e,
                disable_events := d } =
            { enable_count := m, enabled := true, enable_events := e, disable_events := d } := by
        simp [ContextualProfile.disable_by_count, hm']
      rw [hstep, ih hm']

theorem runAll_next_call (times : List ℚ) :
    ∀ t : RepeatedTimer,
      (t.runAll times).next_call = t.next_call + times.length * t.interval
      ∧ (t.runAll times).interval = t.interval := by
  induction times with
  | nil => intro t; simp [RepeatedTimer.runAll]
  | cons now rest ih =>
    intro t
    have hrun : (t.run now).next_call = t.next_call + t.interval
        ∧ (t.run now).interval = t.interval := by
      simp [RepeatedTimer.run, RepeatedTimer.start]
    obtain ⟨h1, h2⟩ := ih (t.run now)
    constructor
    · rw [RepeatedTimer.runAll, h1, hrun.1, hrun.2]
      simp only [List.length_cons]
      push_cast
      ring
    · rw [RepeatedTimer.runAll, h2, hrun.2]

theorem runTimes_apply_mem (stats : Stats) (cu : Nat) (body : List Nat) (l : Nat)
    (hl : l ∈ body) :
    ∀ m : Nat, runTimes stats cu body m cu l = stats cu l + m := by
  intro m
  induction m with
  | zero => rfl
  | succ k ih =>
    show (if cu = cu ∧ l ∈ body then runTimes stats cu body k cu l + 1
          else runTimes stats cu body k cu l) = stats cu l + (k + 1)
    rw [if_pos ⟨rfl, hl⟩, ih]
    omega

theorem runTimes_apply_other (stats : Stats) (cu : Nat) (body : List Nat) (c l : Nat)
    (hc : c ≠ cu) :
    ∀ m : Nat, runTimes stats cu body m c l = stats c l := by
  intro m
  induction m with
  | zero => rfl
  | succ k ih =>
    simp only [runTimes, runOnce]
    rw [if_neg (fun h => hc h.1), ih]

theorem not_mem_take_indexOf (a : String) (l : List String) : a ∉ l.take (l.indexOf a) := by
  induction l with
  | nil => simp
  | cons b t ih =>
    by_cases h : b = a
    · subst h
      simp [List.indexOf_cons_self]
    · rw [List.indexOf_cons_ne t h, List.take_succ_cons]
      intro hmem
      rcases List.mem_cons.mp hmem with h1 | h1
      · exact h h1.symm
      · exact ih h1

theorem take_indexOf_append (a : String) (l : List String) (h : a ∈ l) :
    l.take (l.indexOf a) ++ a :: l.drop (l.indexOf a + 1) = l := by
  have hlt : l.indexOf a < l.length := List.indexOf_lt_length.mpr h
  conv_rhs => rw [← List.take_append_drop (l.indexOf a) l]
  rw [List.drop_eq_getElem_cons hlt, List.getElem_indexOf hlt]

theorem flag_split_eq (flag : String) (l : List String) (h : flag ∈ l)
    (hlast : l.indexOf flag ≠ l.length - 1) :
    l.take (l.indexOf flag) ++ [flag, l.getD (l.indexOf flag + 1) ""]
      ++ l.drop (l.indexOf flag + 2) = l := by
  have hlt : l.indexOf flag < l.length := List.indexOf_lt_length.mpr h
  have hlt1 : l.indexOf flag + 1 < l.length := by omega
  have hd : l.drop (l.indexOf flag + 1)
      = l[l.indexOf flag + 1] :: l.drop (l.indexOf flag + 1 + 1) :=
    List.drop_eq_getElem_cons hlt1
  have hsplit := take_indexOf_append flag l h
  rw [hd] at hsplit
  rw [List.getD_eq_getElem l "" hlt1]
  calc l.take (l.indexOf flag) ++ [flag, l[l.indexOf flag + 1]] ++ l.drop (l.indexOf flag + 2)
      = l.take (l.indexOf flag)
          ++ flag :: l[l.indexOf flag + 1] :: l.drop (l.indexOf flag + 1 + 1) := by
        simp [List.append_assoc]
    _ = l := hsplit

theorem preParseAux_sep_not_mem (n : Nat) (args : List String) (flag sep : String)
    (h : sep ∉ args) :
    preParseAux (n + 1) args flag sep = noSepSplit args flag := by
  rw [preParseAux, noSepSplit, if_neg h]

theorem pre_parse_sep_mem (args : List String) (flag : String) (h : "--" ∈ args) :
    pre_parse_single_arg_directive args flag =
      match noSepSplit (args.take (args.indexOf "--")) flag with
      | Except.error e => Except.error e
      | Except.ok (pre_pre, none, _) =>
        Except.ok (pre_pre ++ ["--"], none, args.drop (args.indexOf "--" + 1))
      | Except.ok (pre_pre, some arg, pre_post) =>
        Except.ok (pre_pre, some arg,
          pre_post ++ ["--"] ++ args.drop (args.indexOf "--" + 1)) := by
  have hlen : args.length ≠ 0 := by
    intro h0
    rw [List.length_eq_zero.mp h0] at h
    simp at h
  have hinner : preParseAux args.length (args.take (args.indexOf "--")) flag "--"
      = noSepSplit (args.take (args.indexOf "--")) flag := by
    have hm : args.length = (args.length - 1) + 1 := by omega
    rw [hm]
    exact preParseAux_sep_not_mem _ _ _ _ (not_mem_take_indexOf "--" args)
  simp only [pre_parse_single_arg_directive, preParseAux, if_pos h]
  rw [hinner]

theorem pre_parse_sep_not_mem (args : List String) (flag : String) (h : "--" ∉ args) :
    pre_parse_single_arg_directive args flag = noSepSplit args flag := by
  rw [pre_parse_single_arg_directive]
  exact preParseAux_sep_not_mem _ _ _ _ h

/- Claim theorems. -/

/-- C1.  Wrapping is idempotent and observationally transparent: for
every registration state and supported callable `f`, wrapping the
object produced by `wrap` again returns that very object with no new
Code Unit registration, and calling the wrapped form returns exactly
what calling `f` directly would return. -/
theorem wrap_idempotent_transparent (registered : List Nat) (f : WCallable) (x : Nat) :
    wrap (wrap registered f).1 (wrap registered f).2 = ((wrap registered f).1, (wrap registered f).2)
    ∧ ((wrap registered f).2).run x = f.run x := by
  by_cases h : f.isWrapper <;> simp [wrap, h]

/-- C2.  The `ContextualProfile` counter behaves as the specified
state machine: `n` `enable_by_count()` calls followed by `n`
`disable_by_count()` calls return the counter to exactly 0, the
underlying profiler's `enable()` is invoked only on the 0-to-1
transition (exactly once when `n ≥ 1`, never when `n = 0`) and
`disable()` exactly once, on the 1-to-0 transition; and
`disable_by_count()` with the counter already at 0 is a no-op. -/
theorem enable_disable_by_count_state_machine (n : Nat) :
    ((acquireReleaseCycle n).enable_count = 0
      ∧ (acquireReleaseCycle n).enable_events = (if n = 0 then 0 else 1)
      ∧ (acquireReleaseCycle n).disable_events = (if n = 0 then 0 else 1)
      ∧ (acquireReleaseCycle n).enabled = false)
    ∧ ∀ p : ContextualProfile, p.enable_count = 0 → p.disable_by_count = p := by
  constructor
  · rcases Nat.eq_zero_or_pos n with hn | hn
    · subst hn
      simp [acquireReleaseCycle, initProfile]
    · have hn' := Nat.pos_iff_ne_zero.mp hn
      rw [acquireReleaseCycle, enable_by_count_iter n hn', disable_by_count_iter n 1 0 hn']
      simp [hn']
  · intro p hp
    simp [ContextualProfile.disable_by_count, hp]

/-- Witness for C2 at `n = 2` and the concrete fresh profiler. -/
theorem enable_disable_by_count_state_machine_witness :
    (acquireReleaseCycle 2).enable_count = 0
    ∧ ContextualProfile.disable_by_count initProfile = initProfile :=
  ⟨(enable_disable_by_count_state_machine 2).1.1,
   (enable_disable_by_count_state_machine 2).2 initProfile rfl⟩

/-- C3.  Modelled from the spec: enable followed by disable is a round
trip on the process-wide trace hook.  For every prior hook state `s`
(whose active hook `H` may be `none`), after `routerEnable` the active
hook is the profiler's, and after the matching `routerDisable` the
active hook is exactly `s.active = H` again. -/
theorem router_enable_disable_roundtrip (s : RouterState) (profHook : Nat) :
    (routerEnable profHook s).active = some profHook
    ∧ (routerDisable (routerEnable profHook s)).active = s.active := by
  simp [routerEnable, routerDisable]

/-- C4.  Modelled from the spec: with `wrap_trace = true` every event
the engine observes is also delivered to the prior hook H in the same
relative order (the delivered list is the event list itself); with
`wrap_trace = false` H receives no events; and in both configurations
the engine credits exactly the executed line numbers in order, so the
per-line hit counts are correct and identical. -/
theorem route_events_wrap_trace (es : List TEvent) :
    (routeEvents true es).1 = es
    ∧ (routeEvents false es).1 = []
    ∧ (∀ b : Bool, (routeEvents b es).2 = lineNumbers es) := by
  refine ⟨?_, ?_, ?_⟩
  · induction es with
    | nil => rfl
    | cons e rest ih => simp [routeEvents, ih]
  · induction es with
    | nil => rfl
    | cons e rest ih => simp [routeEvents, ih]
  · intro b
    induction es with
    | nil => rfl
    | cons e rest ih =>
      cases e <;> simp [routeEvents, lineNumbers, ih]

/-- C5.  Modelled from the spec: two bound methods of the same
underlying function share one Code Unit, and invoking the first `m`
times and the second `n` times credits each line of the shared body
with a combined hit count of `m + n` starting from a fresh profiler. -/
theorem boundmethod_aggregation (b1 b2 : BoundMethod) (hshare : b1.func = b2.func)
    (body : List Nat) (m n l : Nat) (hl : l ∈ body) :
    codeUnitOf b1 = codeUnitOf b2
    ∧ runTimes (runTimes emptyStats (codeUnitOf b1) body m) (codeUnitOf b2) body n
        (codeUnitOf b1) l = m + n
    ∧ ∀ c : Nat, c ≠ codeUnitOf b1 →
        runTimes (runTimes emptyStats (codeUnitOf b1) body m) (codeUnitOf b2) body n c l
          = 0 := by
  refine ⟨hshare, ?_, ?_⟩
  · rw [codeUnitOf, codeUnitOf, hshare]
    rw [runTimes_apply_mem _ _ _ _ hl n, runTimes_apply_mem _ _ _ _ hl m]
    simp [emptyStats]
  · intro c hc
    have hc2 : c ≠ codeUnitOf b2 := by
      rw [codeUnitOf, ← hshare]
      exact hc
    rw [runTimes_apply_other _ _ _ _ _ hc2 n, runTimes_apply_other _ _ _ _ _ hc m]
    rfl

/-- Witness for C5: two bound methods of function 7 on distinct
instances, a two-line body, three and two invocations. -/
theorem boundmethod_aggregation_witness :
    codeUnitOf ⟨1, 7⟩ = codeUnitOf ⟨2, 7⟩
    ∧ runTimes (runTimes emptyStats (codeUnitOf ⟨1, 7⟩) [10, 11] 3) (codeUnitOf ⟨2, 7⟩)
        [10, 11] 2 (codeUnitOf ⟨1, 7⟩) 10 = 3 + 2
    ∧ runTimes (runTimes emptyStats (codeUnitOf ⟨1, 7⟩) [10, 11] 3) (codeUnitOf ⟨2, 7⟩)
        [10, 11] 2 5 10 = 0 :=
  ⟨(boundmethod_aggregation ⟨1, 7⟩ ⟨2, 7⟩ rfl [10, 11] 3 2 10 (by decide)).1,
   (boundmethod_aggregation ⟨1, 7⟩ ⟨2, 7⟩ rfl [10, 11] 3 2 10 (by decide)).2.1,
   (boundmethod_aggregation ⟨1, 7⟩ ⟨2, 7⟩ rfl [10, 11] 3 2 10 (by decide)).2.2 5 (by decide)⟩

/-- C6.  The dump schedule is anchored to scheduled times: after the
constructor's initial scheduling and `k` further firings of `_run` at
arbitrary clock readings, `next_call` equals the construction-time
clock value plus `(k + 1) · interval` (one scheduling per `start`), and
at every firing the delay armed is exactly `next_call - now`. -/
theorem repeated_timer_schedule_anchored (i t0 : ℚ) (times : List ℚ) :
    (RepeatedTimer.runAll (RepeatedTimer.init i t0) times).next_call
        = t0 + (times.length + 1) * i
    ∧ ∀ (t : RepeatedTimer) (now : ℚ),
        (t.run now).armed_delay = some ((t.run now).next_call - now) := by
  constructor
  · have hinit : (RepeatedTimer.init i t0).next_call = t0 + i
        ∧ (RepeatedTimer.init i t0).interval = i := by
      simp [RepeatedTimer.init, RepeatedTimer.start]
    obtain ⟨h1, h2⟩ := runAll_next_call times (RepeatedTimer.init i t0)
    rw [h1, hinit.1, hinit.2]
    ring
  · intro t now
    simp [RepeatedTimer.run, RepeatedTimer.start]

/-- C7.  In `_run`, the next firing is armed before the dump function
is invoked: `self.start()` precedes `self.dump_func(...)` in the
statement order, and after executing exactly the statements that
precede the dump — all that run when the dump raises — the timer is
running again with a timer armed for the next scheduled time. -/
theorem run_arms_next_firing_before_dump :
    runSteps.indexOf RunStep.startStep < runSteps.indexOf RunStep.dumpStep
    ∧ ∀ (t : RepeatedTimer) (now : ℚ),
        (execSteps now t stepsBeforeDump).is_running = true
        ∧ (execSteps now t stepsBeforeDump).armed_delay
            = some (t.next_call + t.interval - now) := by
  constructor
  · decide
  · intro t now
    have hsteps : stepsBeforeDump = [RunStep.setNotRunning, RunStep.startStep] := rfl
    rw [hsteps]
    simp [execSteps, execStep, RepeatedTimer.start]

/-- C8.  Evaluation of `main`'s timer lifecycle at a non-zero output
interval: the first `RepeatedTimer` (timer 0, created at kernprof.py
line 552) is created but `stop()` is never invoked on it, while only
the second (timer 1, line 555, the one `rt` names in the `finally`
block) is stopped before the final `dump_stats`.  This refutes the
claim that `stop()` is invoked on every timer `main` created. -/
theorem main_never_stops_first_timer :
    MainEvent.createTimer 0 ∈ mainTimerTrace 1
    ∧ MainEvent.stopTimer 0 ∉ mainTimerTrace 1
    ∧ MainEvent.createTimer 1 ∈ mainTimerTrace 1
    ∧ MainEvent.stopTimer 1 ∈ mainTimerTrace 1 := by
  decide

/-- C9.  `pre_parse_single_arg_directive` partitions its input
exactly: when it returns `(pre, none, post)` then `pre ++ post = args`
and the flag is absent from the segment preceding the first `"--"`;
when it returns `(pre, some a, post)` then
`pre ++ [flag, a] ++ post = args`; and it raises (returns an error)
exactly when the first occurrence of the flag in the segment before
the first `"--"` (the whole list when there is no `"--"`) is that
segment's last element. -/
theorem pre_parse_partitions_exactly (args : List String) (flag : String) :
    (∀ pre post, pre_parse_single_arg_directive args flag = Except.ok (pre, none, post) →
        pre ++ post = args ∧ flag ∉ segBeforeSep args "--")
    ∧ (∀ pre a post,
        pre_parse_single_arg_directive args flag = Except.ok (pre, some a, post) →
        pre ++ [flag, a] ++ post = args)
    ∧ ((∃ e, pre_parse_single_arg_directive args flag = Except.error e) ↔
        flag ∈ segBeforeSep args "--"
          ∧ (segBeforeSep args "--").indexOf flag
              = (segBeforeSep args "--").length - 1) := by
  by_cases hsep : "--" ∈ args
  · have hseg : segBeforeSep args "--" = args.take (args.indexOf "--") := if_pos hsep
    have hchar := pre_parse_sep_mem args flag hsep
    set pre := args.take (args.indexOf "--") with hpre
    set post := args.drop (args.indexOf "--" + 1) with hpost
    have hargs : pre ++ "--" :: post = args := take_indexOf_append "--" args hsep
    by_cases hflag : flag ∈ pre
    · by_cases hlast : pre.indexOf flag = pre.length - 1
      · have hval : pre_parse_single_arg_directive args flag
            = Except.error ("argument expected for the " ++ flag ++ " option") := by
          rw [hchar]
          simp only [noSepSplit, if_pos hflag, if_pos hlast]
        refine ⟨?_, ?_, ?_⟩
        · intro p q hq
          rw [hval] at hq
          exact absurd hq (by simp)
        · intro p a q hq
          rw [hval] at hq
          exact absurd hq (by simp)
        · constructor
          · intro _
            rw [hseg]
            exact ⟨hflag, hlast⟩
          · intro _
            exact ⟨_, hval⟩
      · have hval : pre_parse_single_arg_directive args flag
            = Except.ok (pre.take (pre.indexOf flag),
                some (pre.getD (pre.indexOf flag + 1) ""),
                pre.drop (pre.indexOf flag + 2) ++ ["--"] ++ post) := by
          rw [hchar]
          simp only [noSepSplit, if_pos hflag, if_neg hlast]
        have hkey := flag_split_eq flag pre hflag hlast
        refine ⟨?_, ?_, ?_⟩
        · intro p q hq
          rw [hval] at hq
          simp at hq
        · intro p a q hq
          rw [hval] at hq
          simp only [Except.ok.injEq, Prod.mk.injEq, Option.some.injEq] at hq
          obtain ⟨hp, ha, hq2⟩ := hq
          subst hp
          subst ha
          subst hq2
          conv_rhs => rw [← hargs, ← hkey]
          simp [List.append_assoc]
        · constructor
          · rintro ⟨e, he⟩
            rw [hval] at he
            simp at he
          · rintro ⟨h1, h2⟩
            rw [hseg] at h2
            exact absurd h2 hlast
    · have hval : pre_parse_single_arg_directive args flag
          = Except.ok (pre ++ ["--"], none, post) := by
        rw [hchar]
        simp only [noSepSplit, if_neg hflag]
      refine ⟨?_, ?_, ?_⟩
      · intro p q hq
        rw [hval] at hq
        simp only [Except.ok.injEq, Prod.mk.injEq] at hq
        obtain ⟨hp, _, hq2⟩ := hq
        subst hp
        subst hq2
        constructor
        · conv_rhs => rw [← hargs]
          simp [List.append_assoc]
        · rw [hseg]
          exact hflag
      · intro p a q hq
        rw [hval] at hq
        simp at hq
      · constructor
        · rintro ⟨e, he⟩
          rw [hval] at he
          simp at he
        · rintro ⟨h1, _⟩
          rw [hseg] at h1
          exact absurd h1 hflag
  · have hseg : segBeforeSep args "--" = args := if_neg hsep
    have hchar := pre_parse_sep_not_mem args flag hsep
    by_cases hflag : flag ∈ args
    · by_cases hlast : args.indexOf flag = args.length - 1
      · have hval : pre_parse_single_arg_directive args flag
            = Except.error ("argument expected for the " ++ flag ++ " option") := by
          rw [hchar]
          simp only [noSepSplit, if_pos hflag, if_pos hlast]
        refine ⟨?_, ?_, ?_⟩
        · intro p q hq
          rw [hval] at hq
          exact absurd hq (by simp)
        · intro p a q hq
          rw [hval] at hq
          exact absurd hq (by simp)
        · constructor
          · intro _
            rw [hseg]
            exact ⟨hflag, hlast⟩
          · intro _
            exact ⟨_, hval⟩
      · have hval : pre_parse_single_arg_directive args flag
            = Except.ok (args.take (args.indexOf flag),
                some (args.getD (args.indexOf flag + 1) ""),
                args.drop (args.indexOf flag + 2)) := by
          rw [hchar]
          simp only [noSepSplit, if_pos hflag, if_neg hlast]
        refine ⟨?_, ?_, ?_⟩
        · intro p q hq
          rw [hval] at hq
          simp at hq
        · intro p a q hq
          rw [hval] at hq
          simp only [Except.ok.injEq, Prod.mk.injEq, Option.some.injEq] at hq
          obtain ⟨hp, ha, hq2⟩ := hq
          subst hp
          subst ha
          subst hq2
          exact flag_split_eq flag args hflag hlast
        · constructor
          · rintro ⟨e, he⟩
            rw [hval] at he
            simp at he
          · rintro ⟨h1, h2⟩
            rw [hseg] at h2
            exact absurd h2 hlast
    · have hval : pre_parse_single_arg_directive args flag
          = Except.ok (args, none, []) := by
        rw [hchar]
        simp only [noSepSplit, if_neg hflag]
      refine ⟨?_, ?_, ?_⟩
      · intro p q hq
        rw [hval] at hq
        simp only [Except.ok.injEq, Prod.mk.injEq] at hq
        obtain ⟨hp, _, hq2⟩ := hq
        subst hp
        subst hq2
        constructor
        · simp
        · rw [hseg]
          exact hflag
      · intro p a q hq
        rw [hval] at hq
        simp at hq
      · constructor
        · rintro ⟨e, he⟩
          rw [hval] at he
          simp at he
        · rintro ⟨h1, _⟩
          rw [hseg] at h1
          exact absurd h1 hflag

/-- Witness for C9 on the doctest input
`['foo', 'bar', '-m', 'baz']` with flag `-m`: the returned partition
reassembles to the input around the flag and its argument. -/
theorem pre_parse_partitions_exactly_witness :
    ["foo", "bar"] ++ ["-m", "baz"] ++ ([] : List String) = ["foo", "bar", "-m", "baz"] :=
  (pre_parse_partitions_exactly ["foo", "bar", "-m", "baz"] "-m").2.1
    ["foo", "bar"] "baz" [] (by rfl)

/-- C10, counterexample.  Concrete refutation of the claim as stated:
run `main`'s body effects (the line-503 `sys.argv` rebinding and the
line-546 in-place `sys.path.insert`) under both decorators from the
concrete pre-call state.  The run completes normally (no exception),
yet `sys.argv` afterwards is `["script.py", "a"]` — the rebound value —
and not its pre-call value `["kernprof", "x"]`: the decorator restored
only the contents of the list object it closed over, while `sys.argv`
references the fresh object from the rebinding. -/
theorem main_argv_not_restored :
    (mainWithRestores (mainBodyModel "script.py" ["a"] "d") initPyState).1 = Except.ok ()
    ∧ sysArgv initPyState = ["kernprof", "x"]
    ∧ sysArgv (mainWithRestores (mainBodyModel "script.py" ["a"] "d") initPyState).2
        = ["script.py", "a"]
    ∧ sysArgv (mainWithRestores (mainBodyModel "script.py" ["a"] "d") initPyState).2
        ≠ sysArgv initPyState := by
  refine ⟨rfl, rfl, rfl, ?_⟩
  decide

/-- C10, amended.  If `main`'s body completes normally, the list
objects the decorators closed over get their pre-call contents spliced
back: `sys.path`, which the body only mutates in place, therefore
equals its pre-call value element for element afterwards, but
`sys.argv`, rebound by the body to `[script] ++ args` at kernprof.py
line 503, afterwards holds the rebound value (only the now-unreferenced
captured object is restored); and when the body raises, the error
propagates with nothing restored (the restore statement follows the
`yield` without a `try`/`finally`). -/
theorem main_restores_path_not_argv (script dir : String) (args : List String)
    (s : PyState) (hne : s.argvRef ≠ s.pathRef) (ha : s.argvRef < s.nextId)
    (hp : s.pathRef < s.nextId) :
    ((mainWithRestores (mainBodyModel script args dir) s).1 = Except.ok ()
      ∧ sysPath (mainWithRestores (mainBodyModel script args dir) s).2 = sysPath s
      ∧ sysArgv (mainWithRestores (mainBodyModel script args dir) s).2 = script :: args
      ∧ (mainWithRestores (mainBodyModel script args dir) s).2.heap s.argvRef
          = s.heap s.argvRef)
    ∧ ∀ {ρ ε : Type} (body : PyState → Except ε ρ × PyState) (e : ε) (s1 : PyState),
        body s = (Except.error e, s1) →
        mainWithRestores body s = (Except.error e, s1) := by
  constructor
  · have h1 : s.pathRef ≠ s.argvRef := fun h => hne h.symm
    have h2 : s.nextId ≠ s.argvRef := by omega
    have h3 : s.nextId ≠ s.pathRef := by omega
    refine ⟨rfl, ?_, ?_, ?_⟩ <;>
      simp [mainWithRestores, _restore_list, mainBodyModel, argvRebind, pathInsert,
        Heap.update, sysArgv, sysPath, hne, h1, h2, h3]
  · intro ρ ε body e s1 h
    simp only [mainWithRestores, _restore_list, h]

/-- Witness for the amended C10 at the concrete pre-call state: after
a normal run of `main`'s body effects, `sys.path` equals its pre-call
value while `sys.argv` holds the rebound `["script.py", "a"]`. -/
theorem main_restores_path_not_argv_witness :
    sysPath (mainWithRestores (mainBodyModel "script.py" ["a"] "d") initPyState).2
        = sysPath initPyState
    ∧ sysArgv (mainWithRestores (mainBodyModel "script.py" ["a"] "d") initPyState).2
        = "script.py" :: ["a"] :=
  ⟨(main_restores_path_not_argv "script.py" "d" ["a"] initPyState (by decide) (by decide)
      (by decide)).1.2.1,
   (main_restores_path_not_argv "script.py" "d" ["a"] initPyState (by decide) (by decide)
      (by decide)).1.2.2.1⟩

end Kernprof


